import Mathlib

/-!
Verification development for the registry-interaction core of the
atomic-reactor build pipeline: the base-image pull-and-tag engine and the
manifest-list resolver (`plugins/pre_pull_base_image.py`) and the Crane
digest poller (`plugins/post_pulp_pull.py`).  Python functions are embedded
shallowly: external collaborators (registry, docker tasker, wall clock)
become oracle functions supplied as parameters, exceptions become `Except`,
and the mutable per-instance cache becomes explicitly threaded state.
-/

/-- Character-list test that `p` begins `s` (kernel-reducible form of
`String.startsWith`). -/
def strStartsWith (s p : String) : Bool :=
  s.data.take p.data.length == p.data

/-- Character-list membership test (kernel-reducible form of `String.contains`). -/
def strHasChar (s : String) (c : Char) : Bool :=
  s.data.contains c

instance {ε α : Type} [DecidableEq ε] [DecidableEq α] : DecidableEq (Except ε α) :=
  fun x y =>
    match x, y with
    | .error a, .error b =>
      if h : a = b then isTrue (by rw [h])
      else isFalse (fun hc => h (by injection hc))
    | .ok a, .ok b =>
      if h : a = b then isTrue (by rw [h])
      else isFalse (fun hc => h (by injection hc))
    | .error _, .ok _ => isFalse (fun hc => Except.noConfusion hc)
    | .ok _, .error _ => isFalse (fun hc => Except.noConfusion hc)

/-- Modelled from the spec: the `ImageReference` value type of the data model
(registry, namespace, repository, tag-or-digest); the source's `ImageName`
class lives outside the verified files.  The digest of a digest-addressed
reference is carried in the `tag` field (as `sha256:...`), matching how
`ImageName.parse` stores `repo@sha256:...`.  Structural equality makes it
usable as a cache key, as the spec's data-model section requires. -/
structure ImageName where
  registry : Option String
  nspace : Option String
  repo : String
  tag : Option String
deriving DecidableEq, Repr

/-- Modelled from the spec: serialization of an `ImageReference`
(`ImageName.to_str` in the source): `[registry/][namespace/]repo` followed by
`@tag` when the tag holds a digest (contains a colon) and `:tag` otherwise. -/
def ImageName.toStr (i : ImageName) : String :=
  let r := match i.nspace with
    | some n => n ++ "/" ++ i.repo
    | none => i.repo
  let r := match i.tag with
    | some t => if strHasChar t ':' then r ++ "@" ++ t else r ++ ":" ++ t
    | none => r
  match i.registry with
  | some g => g ++ "/" ++ r
  | none => r

/-- Modelled from the spec: the source tests the substring `@sha256:` in
`str(image)`; for references of the data model this holds exactly when the
tag field carries a sha256 digest. -/
def ImageName.hasDigestMarker (i : ImageName) : Bool :=
  match i.tag with
  | some t => strStartsWith t "sha256:"
  | none => false

/-- Modelled from the spec: the digest-addressed reference built by the
source as `ImageName.parse(image.to_str(tag=False) + "@" + digest)`, i.e.
the same name with the digest as the pull identity. -/
def mkDigestRef (i : ImageName) (digest : String) : ImageName :=
  { registry := i.registry, nspace := i.nspace, repo := i.repo, tag := some digest }

/-- Python-dict style association-list update: replace in place when the key
is present (keeping its position), append otherwise. -/
def insertAssoc {α β : Type} [DecidableEq α] : List (α × β) → α → β → List (α × β)
  | [], k, v => [(k, v)]
  | (k0, v0) :: rest, k, v =>
    if k0 = k then (k, v) :: rest else (k0, v0) :: insertAssoc rest k v

/-- Association-list lookup (Python `d[k]` / `k in d`). -/
def lookupAssoc {α β : Type} [DecidableEq α] : List (α × β) → α → Option β
  | [], _ => none
  | (k0, v0) :: rest, k => if k0 = k then some v0 else lookupAssoc rest k

/- ## Pull-and-tag engine (`PullBaseImagePlugin._pull_and_tag_image`) -/

/-- One iteration's outcome as decided by the docker tasker: the pull raised
`RetryGeneratorException` (carrying an exception identity), or the pull
succeeded and the tag raised `docker.errors.NotFound`, or pull and tag both
succeeded. -/
inductive Step where
  | pullFail (exc : Nat)
  | tagNotFound
  | tagOk
deriving DecidableEq, Repr

/-- Result of `_pull_and_tag_image`: the returned unique image, a re-raised
`RetryGeneratorException`, or the final `RuntimeError` after 20 attempts. -/
inductive PTOutcome where
  | success (newImage : ImageName)
  | raised (exc : Nat)
  | exhausted
deriving DecidableEq, Repr

/-- The retry loop of `_pull_and_tag_image`, embedded over an oracle `script`
giving each iteration's tasker outcome.  State carried across iterations:
the (possibly library-renamespaced) image and the remembered first library
retry failure.  `i` is the iteration index, `fuel` the remaining attempts of
the `for _ in range(20)` loop.  The second component is the
`workflow.pulled_base_images` ledger: the pulled image name is recorded
right after every successful pull, and the tag response after a successful
tag. -/
def pullAndTagGo (script : Nat → Step) (uniqueId nonce : String) :
    ImageName → Option Nat → Nat → Nat → PTOutcome × List String
  | _, _, _, 0 => (.exhausted, [])
  | image, firstLib, i, fuel + 1 =>
    match script i with
    | .pullFail e =>
      match firstLib with
      | some e0 => (.raised e0, [])
      | none =>
        if image.nspace.isSome then (.raised e, [])
        else
          pullAndTagGo script uniqueId nonce
            { image with nspace := some "library" } (some e) (i + 1) fuel
    | .tagNotFound =>
      let rest := pullAndTagGo script uniqueId nonce image firstLib (i + 1) fuel
      (rest.1, image.toStr :: rest.2)
    | .tagOk =>
      let newImage : ImageName := ⟨none, none, uniqueId, some nonce⟩
      (.success newImage, [image.toStr, newImage.toStr])

/-- `_pull_and_tag_image(image, build_json, nonce)`: 20-attempt loop starting
with no remembered library failure; `uniqueId` is the OpenShift build name
read from `build_json["metadata"]["name"]`. -/
def pullAndTagImage (script : Nat → Step) (image : ImageName)
    (uniqueId nonce : String) : PTOutcome × List String :=
  pullAndTagGo script uniqueId nonce image none 0 20

/- ## Manifest-list resolver (`_get_manifest_list` and friends) -/

/-- One entry of a manifest list: `{digest, platform.architecture}`. -/
structure Manifest where
  digest : String
  architecture : String
deriving DecidableEq, Repr

/-- The `manifests` array of a manifest-list response. -/
abbrev ManifestList := List Manifest

/-- Config blob of an image: only its `config.Labels` mapping is read. -/
structure ConfigBlob where
  labels : List (String × String)
deriving DecidableEq, Repr

/-- Registry oracle: `get_manifest_list` (absent = falsy response) and
`get_config_from_registry` (`Except.error` = `HTTPError`/`RetryError`/
`Timeout`, the transport errors the source catches). -/
structure Registry where
  manifestList : ImageName → Option ManifestList
  configBlob : ImageName → Except Unit ConfigBlob

/-- The per-plugin-instance `manifest_list_cache` dict. -/
abbrev Cache := List (ImageName × Option ManifestList)

/-- How `_get_manifest_list` fails: `RuntimeError` after a transport error on
the config fetch, or an uncaught `KeyError` reading a missing label. -/
inductive GmlError where
  | configFetchFatal
  | labelKeyError
deriving DecidableEq, Repr

/-- Result of `_get_manifest_list`: the manifest list (possibly absent), the
updated cache, and the registry calls performed (manifest-list fetches and
config-blob fetches, in order). -/
structure GmlOut where
  ml : Option ManifestList
  cache : Cache
  mlFetches : List ImageName
  cfgFetches : List ImageName
deriving DecidableEq, Repr

/-- `_get_manifest_list(image)`: consult the cache; otherwise fetch; for a
digest-addressed image with an absent result, fetch the config blob, read
the `release` and `version` labels, synthesize the `version-release` tag,
and retry the fetch with the adjusted reference; cache the result under the
reference as fetched (the adjusted one on the fallback path). -/
def getManifestList (reg : Registry) (cache : Cache) (image : ImageName) :
    Except GmlError GmlOut :=
  match lookupAssoc cache image with
  | some v => .ok ⟨v, cache, [], []⟩
  | none =>
    let ml := reg.manifestList image
    if image.hasDigestMarker && ml.isNone then
      match reg.configBlob image with
      | .error _ => .error .configFetchFatal
      | .ok blob =>
        match lookupAssoc blob.labels "release" with
        | none => .error .labelKeyError
        | some release =>
          match lookupAssoc blob.labels "version" with
          | none => .error .labelKeyError
          | some version =>
            let adjusted := { image with tag := some (version ++ "-" ++ release) }
            let ml2 := reg.manifestList adjusted
            .ok ⟨ml2, insertAssoc cache adjusted ml2, [image, adjusted], [image]⟩
    else
      .ok ⟨ml, insertAssoc cache image ml, [image], []⟩

/- ## Architecture-coverage validation (`_validate_platforms_in_image`) -/

/-- A validation run that returns without raising either skipped (one of the
early informational returns) or passed the superset assertion. -/
inductive VOutcome where
  | skipped
  | passed
deriving DecidableEq, Repr

/-- Raised exits of `_validate_platforms_in_image`: a resolver failure, the
`RuntimeError` for a missing manifest list, the failed superset `assert`
(missing architectures), or the uncaught `KeyError` from
`platform_to_arch[platform]`. -/
inductive VError where
  | resolver (e : GmlError)
  | noManifestList
  | missingArches
  | platformKeyError
deriving DecidableEq, Repr

/-- Non-raising result of `_validate_platforms_in_image` plus the threaded
cache and the registry calls performed. -/
structure VRes where
  outcome : VOutcome
  cache : Cache
  mlFetches : List ImageName
  cfgFetches : List ImageName
deriving DecidableEq, Repr

/-- `set(platform_to_arch[p] for p in platforms)` with the uncaught
`KeyError` on a missing entry (the mapping oracle returns `none`). -/
def mapPlatforms (p2a : String → Option String) : List String → Except Unit (List String)
  | [] => .ok []
  | p :: ps =>
    match p2a p with
    | none => .error ()
    | some a =>
      match mapPlatforms p2a ps with
      | .error e => .error e
      | .ok rest => .ok (a :: rest)

/-- `_validate_platforms_in_image(image)`.  `expectedPlatforms = none` models
`get_platforms` returning `None`; `platformToArch = none` models
`get_platform_to_goarch_mapping` raising `KeyError` (platform descriptors
not defined).  Early informational returns are `skipped`; the superset
check over the fetched manifest list decides `passed` versus the fatal
missing-architectures assertion. -/
def validatePlatformsInImage (reg : Registry) (expectedPlatforms : Option (List String))
    (platformToArch : Option (String → Option String)) (cache : Cache)
    (image : ImageName) : Except VError VRes :=
  match expectedPlatforms with
  | none => .ok ⟨.skipped, cache, [], []⟩
  | some ps =>
    if ps.isEmpty then .ok ⟨.skipped, cache, [], []⟩
    else if ps.length == 1 then .ok ⟨.skipped, cache, [], []⟩
    else if image.registry.isNone then .ok ⟨.skipped, cache, [], []⟩
    else
      match platformToArch with
      | none => .ok ⟨.skipped, cache, [], []⟩
      | some p2a =>
        match getManifestList reg cache image with
        | .error e => .error (.resolver e)
        | .ok out =>
          match out.ml with
          | none => .error .noManifestList
          | some mlist =>
            let mlArches := mlist.map (fun m => m.architecture)
            match mapPlatforms p2a ps with
            | .error _ => .error .platformKeyError
            | .ok expectedArches =>
              if expectedArches.all (fun a => mlArches.contains a) then
                .ok ⟨.passed, out.cache, out.mlFetches, out.cfgFetches⟩
              else
                .error .missingArches

/- ## Per-architecture substitution (`_get_image_for_different_arch`) -/

/-- The `for arch, digest in arch_digests.items()` loop: build
`build_image_digests` keyed by the mapped platform, remembering the last
mapped platform (`present_platform`); `Except.error` is the `KeyError` from
`arch_to_platform[arch]` when an architecture is unmapped. -/
def buildDigests (a2p : String → Option String) :
    List (String × ImageName) → List (String × ImageName) → Option String →
    Except Unit (List (String × ImageName) × Option String)
  | [], bid, ppo => .ok (bid, ppo)
  | (arch, img) :: rest, bid, _ =>
    match a2p arch with
    | none => .error ()
    | some pp => buildDigests a2p rest (insertAssoc bid pp img) (some pp)

/-- Non-raising result of `_get_image_for_different_arch`: the substituted
reference (or `none` to leave the caller's reference unchanged), plus the
threaded cache and the registry calls performed. -/
structure ArchRes where
  newImage : Option ImageName
  cache : Cache
  mlFetches : List ImageName
  cfgFetches : List ImageName
deriving DecidableEq, Repr

/-- `_get_image_for_different_arch(image, platform)`: resolve the manifest
list; if present, map each manifest's architecture to its digest-addressed
reference (`arch_digests`, a dict keyed by architecture), then to platforms
(`build_image_digests`); when the current `platform` is absent from the
mapped platforms, substitute the reference stored under the last processed
platform.  Every `KeyError` in that block is caught and yields no
substitution (`none`). -/
def getImageForDifferentArch (reg : Registry)
    (archToPlatform : Option (String → Option String)) (cache : Cache)
    (image : ImageName) (platform : String) :
    Except GmlError ArchRes :=
  match getManifestList reg cache image with
  | .error e => .error e
  | .ok out =>
    match out.ml with
    | none => .ok ⟨none, out.cache, out.mlFetches, out.cfgFetches⟩
    | some mlist =>
      let archDigests : List (String × ImageName) :=
        mlist.foldl (fun acc m => insertAssoc acc m.architecture (mkDigestRef image m.digest)) []
      let attempt : Except Unit (Option ImageName) :=
        match archToPlatform with
        | none => .error ()
        | some a2p =>
          match buildDigests a2p archDigests [] none with
          | .error _ => .error ()
          | .ok (bid, ppo) =>
            if (lookupAssoc bid platform).isSome then .ok none
            else
              match ppo with
              | none => .error ()
              | some pp =>
                match lookupAssoc bid pp with
                | some img => .ok (some img)
                | none => .error ()
      match attempt with
      | .error _ => .ok ⟨none, out.cache, out.mlFetches, out.cfgFetches⟩
      | .ok newImage => .ok ⟨newImage, out.cache, out.mlFetches, out.cfgFetches⟩

/- ## Registry enforcement (`_ensure_image_registry`) -/

/-- `_ensure_image_registry(image)`: work on a copy; with a configured parent
registry, raise when the image names a different registry, otherwise force
the configured registry onto the copy; with no parent registry return the
copy unchanged. -/
def ensureImageRegistry (parentRegistry : Option String) (image : ImageName) :
    Except String ImageName :=
  match parentRegistry with
  | some pr =>
    match image.registry with
    | some r =>
      if r = pr then .ok { image with registry := some pr }
      else .error "Registry specified in dockerfile image does not match configured one"
    | none => .ok { image with registry := some pr }
  | none => .ok image

/- ## Crane digest poller (`PulpPullPlugin.retry_if_not_found`) -/

/-- `util.get_manifest_digests` result: which manifest schema variants are
currently resolvable. -/
structure DigestSet where
  v1 : Bool
  v2 : Bool
  v2_list : Bool
deriving DecidableEq, Repr

/-- One digest lookup outcome: an `HTTPError` with a status code, or a
structurally successful `DigestSet`. -/
inductive LookupResult where
  | err (status : Nat)
  | ok (d : DigestSet)
deriving DecidableEq, Repr

/-- Observable events of one poller run: a digest lookup, the detailed
403 diagnostic log, and a `sleep(retry_delay)`. -/
inductive PollEv where
  | lookup
  | diag403
  | sleepEv
deriving DecidableEq, Repr

/-- Fatal poller exits: a re-raised `HTTPError`, or `CraneTimeoutError`
carrying the number of seconds named in its message. -/
inductive PollErr where
  | http (status : Nat)
  | craneTimeout (reported : Nat)
deriving DecidableEq, Repr

/-- Poller configuration: the wall-clock budget and the expectation flags
(`expect_v2schema2list`, `expect_v2schema2list_only`, `expect_v2schema2`). -/
structure PollCfg where
  timeout : Nat
  expectV2List : Bool
  expectV2ListOnly : Bool
  expectV2 : Bool
deriving DecidableEq, Repr

/-- The `while True` loop of `retry_if_not_found`, over an oracle of lookup
responses per iteration and an abstract wall clock `elapsed i` = value of
`time() - start` at iteration `i`'s timeout check.  Classification: 404 is
transient; 403 is transient plus the detailed diagnostic; any other HTTP
error re-raises immediately (no timeout check, no sleep).  A successful
lookup that misses the active expectations is a soft miss.  Transient
iterations check the elapsed clock against the budget before sleeping;
exceeding it raises `CraneTimeoutError` whose message formats the
configured `self.timeout`.  `fuel` bounds the unrolling; `none` means the
loop was still running after `fuel` iterations. -/
def pollGo (responses : Nat → LookupResult) (elapsed : Nat → Nat) (cfg : PollCfg) :
    Nat → Nat → Option (List PollEv × Except PollErr DigestSet)
  | _, 0 => none
  | i, fuel + 1 =>
    let proceed := fun (evs : List PollEv) =>
      if cfg.timeout < elapsed i then
        some (evs, Except.error (PollErr.craneTimeout cfg.timeout))
      else
        match pollGo responses elapsed cfg (i + 1) fuel with
        | none => none
        | some (t, r) => some (evs ++ PollEv.sleepEv :: t, r)
    match responses i with
    | .err s =>
      if s = 404 then proceed [PollEv.lookup]
      else if s = 403 then proceed [PollEv.lookup, PollEv.diag403]
      else some ([PollEv.lookup], Except.error (PollErr.http s))
    | .ok d =>
      if cfg.expectV2List && !d.v2_list then proceed [PollEv.lookup]
      else if !cfg.expectV2ListOnly && cfg.expectV2 && !d.v2 then proceed [PollEv.lookup]
      else some ([PollEv.lookup], Except.ok d)

/-- `retry_if_not_found(get_manifest_digests, ...)`: the loop from its first
iteration. -/
def retryIfNotFound (responses : Nat → LookupResult) (elapsed : Nat → Nat)
    (cfg : PollCfg) (fuel : Nat) : Option (List PollEv × Except PollErr DigestSet) :=
  pollGo responses elapsed cfg 0 fuel

/- ## Expectation derivation (`set_manifest_list_expectations`) -/

/-- The three expectation flags of the plugin instance. -/
structure Expectations where
  expectV2List : Bool
  expectV2ListOnly : Bool
  expectV2 : Bool
deriving DecidableEq, Repr

/-- The `for plat in platforms: if platform_to_goarch[plat] == 'amd64':
break` search; `Except.error` is the uncaught `KeyError` on a missing
platform entry. -/
def anyAmd64 (p2g : String → Option String) : List String → Except Unit Bool
  | [] => .ok false
  | p :: ps =>
    match p2g p with
    | none => .error ()
    | some g => if g = "amd64" then .ok true else anyAmd64 p2g ps

/-- `set_manifest_list_expectations()`: if the group-manifests step produced
output, expect a schema-2 manifest list; then, when platforms are known
(non-empty) and the platform-to-goarch mapping is available and no platform
maps to amd64, switch to manifest-list-only mode and drop the
single-manifest expectation. -/
def setManifestListExpectations (groupManifestsOutput : Bool)
    (platforms : Option (List String)) (platformToGoarch : Option (String → Option String))
    (init : Expectations) : Except Unit Expectations :=
  if groupManifestsOutput then
    let e1 := { init with expectV2List := true }
    match platforms with
    | none => .ok e1
    | some ps =>
      if ps.isEmpty then .ok e1
      else
        match platformToGoarch with
        | none => .ok e1
        | some p2g =>
          match anyAmd64 p2g ps with
          | .error e => .error e
          | .ok true => .ok e1
          | .ok false => .ok { e1 with expectV2ListOnly := true, expectV2 := false }
  else .ok init

/-- The poller as invoked by `run()`: derive the expectations once, then
enter the polling loop with a fixed configuration (the loop itself never
re-derives them). -/
def pollAfterDerivation (groupManifestsOutput : Bool) (platforms : Option (List String))
    (platformToGoarch : Option (String → Option String)) (init : Expectations)
    (responses : Nat → LookupResult) (elapsed : Nat → Nat) (timeout fuel : Nat) :
    Except Unit (Option (List PollEv × Except PollErr DigestSet)) :=
  match setManifestListExpectations groupManifestsOutput platforms platformToGoarch init with
  | .error e => .error e
  | .ok exps =>
    .ok (pollGo responses elapsed
      ⟨timeout, exps.expectV2List, exps.expectV2ListOnly, exps.expectV2⟩ 0 fuel)

/- ## Helper lemmas: pull-and-tag -/

theorem pullAndTagGo_agree (u n : String) (s1 s2 : Nat → Step) :
    ∀ (fuel i : Nat) (image : ImageName) (fl : Option Nat),
      (∀ j, i ≤ j → j < i + fuel → s1 j = s2 j) →
      pullAndTagGo s1 u n image fl i fuel = pullAndTagGo s2 u n image fl i fuel := by
  intro fuel
  induction fuel with
  | zero => intro i image fl _; rfl
  | succ f ih =>
    intro i image fl h
    have h0 : s2 i = s1 i := (h i (Nat.le_refl i) (by omega)).symm
    have hrest : ∀ j, i + 1 ≤ j → j < i + 1 + f → s1 j = s2 j := by
      intro j hj1 hj2
      exact h j (by omega) (by omega)
    simp only [pullAndTagGo, h0]
    cases hs : s1 i with
    | pullFail e =>
      cases fl with
      | some e0 => rfl
      | none =>
        by_cases hns : image.nspace.isSome
        · simp [hns]
        · simp only [hns, if_false, Bool.false_eq_true, if_neg]
          exact ih (i + 1) _ _ hrest
    | tagNotFound => rw [ih (i + 1) image fl hrest]
    | tagOk => rfl

theorem pullAndTagGo_notFound_exhausts (s : Nat → Step) (u n : String) :
    ∀ (fuel i : Nat) (image : ImageName) (fl : Option Nat),
      (∀ j, i ≤ j → j < i + fuel → s j = .tagNotFound) →
      pullAndTagGo s u n image fl i fuel = (.exhausted, List.replicate fuel image.toStr) := by
  intro fuel
  induction fuel with
  | zero => intro i image fl _; rfl
  | succ f ih =>
    intro i image fl h
    have h0 : s i = .tagNotFound := h i (Nat.le_refl i) (by omega)
    have hrest : ∀ j, i + 1 ≤ j → j < i + 1 + f → s j = .tagNotFound := by
      intro j hj1 hj2; exact h j (by omega) (by omega)
    simp only [pullAndTagGo, h0]
    rw [ih (i + 1) image fl hrest]
    rfl

/-- C1: every call to `_pull_and_tag_image` makes at most 20 attempts (the
outcome depends only on the first 20 tasker outcomes); a `NotFound` failure
of the tag step loops back and re-pulls instead of failing; and 20
consecutive NotFound-on-tag outcomes terminate with the fatal
pull-tag-exhausted `RuntimeError`. -/
theorem c1_pull_tag_attempt_budget :
    (∀ (s1 s2 : Nat → Step) (image : ImageName) (u n : String),
        (∀ j, j < 20 → s1 j = s2 j) →
        pullAndTagImage s1 image u n = pullAndTagImage s2 image u n)
    ∧ (∀ (s : Nat → Step) (u n : String) (image : ImageName) (fl : Option Nat) (i fuel : Nat),
        s i = .tagNotFound →
        pullAndTagGo s u n image fl i (fuel + 1) =
          ((pullAndTagGo s u n image fl (i + 1) fuel).1,
            image.toStr :: (pullAndTagGo s u n image fl (i + 1) fuel).2))
    ∧ (∀ (s : Nat → Step) (image : ImageName) (u n : String),
        (∀ j, j < 20 → s j = .tagNotFound) →
        pullAndTagImage s image u n = (.exhausted, List.replicate 20 image.toStr)) := by
  refine ⟨?_, ?_, ?_⟩
  · intro s1 s2 image u n h
    exact pullAndTagGo_agree u n s1 s2 20 0 image none (fun j _ hj2 => h j (by omega))
  · intro s u n image fl i fuel hs
    simp only [pullAndTagGo, hs]
  · intro s image u n h
    exact pullAndTagGo_notFound_exhausts s u n 20 0 image none (fun j _ hj2 => h j (by omega))

/-- Witness for C1 at a concrete input: a run whose 20 attempts all end in
NotFound-on-tag is pull-tag-exhausted. -/
theorem c1_pull_tag_attempt_budget_witness :
    pullAndTagImage (fun _ => Step.tagNotFound) ⟨none, none, "rhel7", some "latest"⟩ "build-1" "0" =
      (.exhausted, List.replicate 20 (ImageName.toStr ⟨none, none, "rhel7", some "latest"⟩)) :=
  c1_pull_tag_attempt_budget.2.2 (fun _ => Step.tagNotFound)
    ⟨none, none, "rhel7", some "latest"⟩ "build-1" "0" (fun _ _ => rfl)

/-- C2: on a retryable pull failure (`RetryGeneratorException`), an
unnamespaced image is rewritten once to the `library` namespace and the pull
retried (a following successful pull+tag returns the unique image, and the
ledger shows the retried pull used the `library` namespace); an already
namespaced image re-raises the failure; and when the single library retry
fails again with a retryable pull failure, the first failure is re-raised,
not the second.  Also: after pull success and NotFound-on-tag, one re-pull
followed by a successful tag succeeds within the budget. -/
theorem c2_pull_retry_library_namespace :
    (∀ (s : Nat → Step) (image : ImageName) (u n : String) (e : Nat),
        image.nspace = none → s 0 = .pullFail e → s 1 = .tagOk →
        pullAndTagImage s image u n =
          (.success ⟨none, none, u, some n⟩,
            [ImageName.toStr { image with nspace := some "library" },
             ImageName.toStr ⟨none, none, u, some n⟩]))
    ∧ (∀ (s : Nat → Step) (image : ImageName) (u n : String) (e : Nat) (ns : String),
        image.nspace = some ns → s 0 = .pullFail e →
        pullAndTagImage s image u n = (.raised e, []))
    ∧ (∀ (s : Nat → Step) (image : ImageName) (u n : String) (e0 e1 : Nat),
        image.nspace = none → s 0 = .pullFail e0 → s 1 = .pullFail e1 →
        pullAndTagImage s image u n = (.raised e0, []))
    ∧ (∀ (s : Nat → Step) (image : ImageName) (u n : String),
        s 0 = .tagNotFound → s 1 = .tagOk →
        pullAndTagImage s image u n =
          (.success ⟨none, none, u, some n⟩,
            [image.toStr, image.toStr, ImageName.toStr ⟨none, none, u, some n⟩])) := by
  have step : ∀ (s : Nat → Step) (u n : String) (image : ImageName) (fl : Option Nat) (i fuel : Nat),
      pullAndTagGo s u n image fl i (fuel + 1) =
        match s i with
        | .pullFail e =>
          match fl with
          | some e0 => (.raised e0, [])
          | none =>
            if image.nspace.isSome then (.raised e, [])
            else pullAndTagGo s u n { image with nspace := some "library" } (some e) (i + 1) fuel
        | .tagNotFound =>
          ((pullAndTagGo s u n image fl (i + 1) fuel).1,
            image.toStr :: (pullAndTagGo s u n image fl (i + 1) fuel).2)
        | .tagOk =>
          (.success ⟨none, none, u, some n⟩,
            [image.toStr, ImageName.toStr ⟨none, none, u, some n⟩]) := by
    intro s u n image fl i fuel
    simp only [pullAndTagGo]
  refine ⟨?_, ?_, ?_, ?_⟩
  · intro s image u n e hns hs0 hs1
    have h1 : pullAndTagImage s image u n =
        pullAndTagGo s u n { image with nspace := some "library" } (some e) 1 19 := by
      show pullAndTagGo s u n image none 0 (19 + 1) = _
      rw [step, hs0]
      simp [hns]
    rw [h1]
    show pullAndTagGo s u n _ (some e) 1 (18 + 1) = _
    rw [step, hs1]
  · intro s image u n e ns hns hs0
    show pullAndTagGo s u n image none 0 (19 + 1) = _
    rw [step, hs0]
    simp [hns]
  · intro s image u n e0 e1 hns hs0 hs1
    have h1 : pullAndTagImage s image u n =
        pullAndTagGo s u n { image with nspace := some "library" } (some e0) 1 19 := by
      show pullAndTagGo s u n image none 0 (19 + 1) = _
      rw [step, hs0]
      simp [hns]
    rw [h1]
    show pullAndTagGo s u n _ (some e0) 1 (18 + 1) = _
    rw [step, hs1]
  · intro s image u n hs0 hs1
    show pullAndTagGo s u n image none 0 (19 + 1) = _
    rw [step, hs0]
    show (_, image.toStr :: (pullAndTagGo s u n image none 1 (18 + 1)).2) = _
    rw [step, hs1]

/-- Witness for C2 at a concrete input: pull of unnamespaced `rhel7` fails
once, the library-namespace retry pulls and tags successfully. -/
theorem c2_pull_retry_library_namespace_witness :
    pullAndTagImage (fun i => if i = 0 then Step.pullFail 7 else Step.tagOk)
        ⟨none, none, "rhel7", some "latest"⟩ "build-1" "0" =
      (.success ⟨none, none, "build-1", some "0"⟩,
        [ImageName.toStr ⟨none, some "library", "rhel7", some "latest"⟩,
         ImageName.toStr ⟨none, none, "build-1", some "0"⟩]) :=
  c2_pull_retry_library_namespace.1 (fun i => if i = 0 then Step.pullFail 7 else Step.tagOk)
    ⟨none, none, "rhel7", some "latest"⟩ "build-1" "0" 7 rfl rfl rfl

/- ## Helper lemmas: association lists -/

theorem lookupAssoc_insert_self {α β : Type} [DecidableEq α] (l : List (α × β)) (k : α) (v : β) :
    lookupAssoc (insertAssoc l k v) k = some v := by
  induction l with
  | nil => simp [insertAssoc, lookupAssoc]
  | cons kv rest ih =>
    obtain ⟨k0, v0⟩ := kv
    by_cases h : k0 = k
    · simp [insertAssoc, lookupAssoc, h]
    · simp [insertAssoc, lookupAssoc, h, ih]

theorem lookupAssoc_insert_ne {α β : Type} [DecidableEq α] (l : List (α × β)) (k k' : α) (v : β)
    (h : k' ≠ k) : lookupAssoc (insertAssoc l k v) k' = lookupAssoc l k' := by
  induction l with
  | nil => simp [insertAssoc, lookupAssoc, Ne.symm h]
  | cons kv rest ih =>
    obtain ⟨k0, v0⟩ := kv
    by_cases h0 : k0 = k
    · subst h0
      simp [insertAssoc, lookupAssoc, Ne.symm h]
    · simp [insertAssoc, lookupAssoc, h0, ih]

theorem insertAssoc_forall {α β : Type} [DecidableEq α] (P : α × β → Prop) :
    ∀ (l : List (α × β)) (k : α) (v : β), (∀ kv ∈ l, P kv) → P (k, v) →
      ∀ kv ∈ insertAssoc l k v, P kv := by
  intro l
  induction l with
  | nil => intro k v _ hkv kv hmem; simp [insertAssoc] at hmem; rw [hmem]; exact hkv
  | cons kv0 rest ih =>
    intro k v hl hkv kv hmem
    obtain ⟨k0, v0⟩ := kv0
    by_cases h0 : k0 = k
    · simp [insertAssoc, h0] at hmem
      rcases hmem with h | h
      · rw [h]; exact hkv
      · exact hl kv (List.mem_cons_of_mem _ h)
    · simp only [insertAssoc, if_neg h0] at hmem
      rcases List.mem_cons.mp hmem with h | h
      · rw [h]; exact hl (k0, v0) (List.mem_cons_self _ _)
      · exact ih k v (fun x hx => hl x (List.mem_cons_of_mem _ hx)) hkv kv h

theorem lookupAssoc_mem {α β : Type} [DecidableEq α] :
    ∀ (l : List (α × β)) (k : α) (v : β), lookupAssoc l k = some v → (k, v) ∈ l := by
  intro l
  induction l with
  | nil => intro k v h; simp [lookupAssoc] at h
  | cons kv0 rest ih =>
    intro k v h
    obtain ⟨k0, v0⟩ := kv0
    by_cases h0 : k0 = k
    · subst h0
      simp [lookupAssoc] at h
      rw [h]
      exact List.mem_cons_self _ _
    · simp only [lookupAssoc, if_neg h0] at h
      exact List.mem_cons_of_mem _ (ih k v h)

theorem insertAssoc_ne_nil {α β : Type} [DecidableEq α] (l : List (α × β)) (k : α) (v : β) :
    insertAssoc l k v ≠ [] := by
  cases l with
  | nil => simp [insertAssoc]
  | cons kv rest =>
    obtain ⟨k0, v0⟩ := kv
    by_cases h0 : k0 = k <;> simp [insertAssoc, h0]


/- ## Helper lemmas: manifest-list resolver -/

theorem getManifestList_fallback_error (reg : Registry) (cache : Cache) (image : ImageName)
    (err : Unit) (hcache : lookupAssoc cache image = none)
    (hdig : image.hasDigestMarker = true) (hml : reg.manifestList image = none)
    (herr : reg.configBlob image = .error err) :
    getManifestList reg cache image = .error .configFetchFatal := by
  simp only [getManifestList, hcache, hdig, hml, herr]
  simp

theorem getManifestList_fallback (reg : Registry) (cache : Cache) (image : ImageName)
    (blob : ConfigBlob) (version release : String)
    (hcache : lookupAssoc cache image = none)
    (hdig : image.hasDigestMarker = true) (hml : reg.manifestList image = none)
    (hblob : reg.configBlob image = .ok blob)
    (hrel : lookupAssoc blob.labels "release" = some release)
    (hver : lookupAssoc blob.labels "version" = some version) :
    getManifestList reg cache image =
      .ok ⟨reg.manifestList { image with tag := some (version ++ "-" ++ release) },
           insertAssoc cache { image with tag := some (version ++ "-" ++ release) }
             (reg.manifestList { image with tag := some (version ++ "-" ++ release) }),
           [image, { image with tag := some (version ++ "-" ++ release) }],
           [image]⟩ := by
  simp only [getManifestList, hcache, hdig, hml, hblob, hrel, hver]
  simp

/-- C3: for a digest-addressed reference whose direct manifest-list fetch is
absent (and that is not cached), resolution fetches the config blob exactly
once, reads the `version` and `release` labels, synthesizes the tag
`version-release`, and retries the manifest-list fetch exactly once with
that tag substituted for the digest; a transport error on the config-blob
fetch is the fatal `RuntimeError`. -/
theorem c3_digest_tag_fallback :
    ∀ (reg : Registry) (cache : Cache) (image : ImageName),
      lookupAssoc cache image = none →
      image.hasDigestMarker = true →
      reg.manifestList image = none →
      ((∀ err, reg.configBlob image = .error err →
          getManifestList reg cache image = .error .configFetchFatal)
        ∧ (∀ blob version release,
            reg.configBlob image = .ok blob →
            lookupAssoc blob.labels "release" = some release →
            lookupAssoc blob.labels "version" = some version →
            getManifestList reg cache image =
              .ok ⟨reg.manifestList { image with tag := some (version ++ "-" ++ release) },
                   insertAssoc cache { image with tag := some (version ++ "-" ++ release) }
                     (reg.manifestList { image with tag := some (version ++ "-" ++ release) }),
                   [image, { image with tag := some (version ++ "-" ++ release) }],
                   [image]⟩)) := by
  intro reg cache image hcache hdig hml
  constructor
  · intro err herr
    exact getManifestList_fallback_error reg cache image err hcache hdig hml herr
  · intro blob version release hblob hrel hver
    exact getManifestList_fallback reg cache image blob version release hcache hdig hml hblob hrel hver

/-- Witness for C3 at a concrete input: both the transport-error branch and
the successful fallback branch, for `reg.io/foo@sha256:abc`. -/
theorem c3_digest_tag_fallback_witness :
    (getManifestList
        ⟨fun _ => none, fun _ => .error ()⟩ [] ⟨some "reg.io", none, "foo", some "sha256:abc"⟩ =
      .error .configFetchFatal)
    ∧ (getManifestList
        ⟨fun i => if i.tag = some "1.0-2" then some [⟨"sha256:d1", "amd64"⟩] else none,
         fun _ => .ok ⟨[("release", "2"), ("version", "1.0")]⟩⟩
        [] ⟨some "reg.io", none, "foo", some "sha256:abc"⟩ =
      .ok ⟨some [⟨"sha256:d1", "amd64"⟩],
           [(⟨some "reg.io", none, "foo", some "1.0-2"⟩, some [⟨"sha256:d1", "amd64"⟩])],
           [⟨some "reg.io", none, "foo", some "sha256:abc"⟩,
            ⟨some "reg.io", none, "foo", some "1.0-2"⟩],
           [⟨some "reg.io", none, "foo", some "sha256:abc"⟩]⟩) := by
  constructor
  · exact (c3_digest_tag_fallback ⟨fun _ => none, fun _ => .error ()⟩ []
      ⟨some "reg.io", none, "foo", some "sha256:abc"⟩ rfl (by decide) rfl).1 () rfl
  · exact (c3_digest_tag_fallback
      ⟨fun i => if i.tag = some "1.0-2" then some [⟨"sha256:d1", "amd64"⟩] else none,
       fun _ => .ok ⟨[("release", "2"), ("version", "1.0")]⟩⟩ []
      ⟨some "reg.io", none, "foo", some "sha256:abc"⟩ rfl (by decide) (by decide)).2
      ⟨[("release", "2"), ("version", "1.0")]⟩ "1.0" "2" rfl (by decide) (by decide)

/-- C4 (amended): the manifest-list result is cached keyed by the reference
as fetched, after any tag adjustment.  A cached reference is answered with
no new registry fetch (including an absent cached result); a first
resolution that does not take the digest-tag fallback caches under the
reference itself, so a repeat resolution of that reference fetches nothing;
but a digest-addressed reference resolved through the tag fallback is
cached only under the tag-adjusted reference, so the original reference
stays uncached and a repeat resolution fetches again. -/
theorem c4_manifest_list_cached_per_reference :
    (∀ (reg : Registry) (cache : Cache) (image : ImageName) (v : Option ManifestList),
        lookupAssoc cache image = some v →
        getManifestList reg cache image = .ok ⟨v, cache, [], []⟩)
    ∧ (∀ (reg : Registry) (cache : Cache) (image : ImageName),
        lookupAssoc cache image = none →
        (image.hasDigestMarker && (reg.manifestList image).isNone) = false →
        getManifestList reg cache image =
          .ok ⟨reg.manifestList image, insertAssoc cache image (reg.manifestList image),
               [image], []⟩
        ∧ getManifestList reg (insertAssoc cache image (reg.manifestList image)) image =
          .ok ⟨reg.manifestList image, insertAssoc cache image (reg.manifestList image),
               [], []⟩)
    ∧ (∀ (reg : Registry) (cache : Cache) (image : ImageName) (out : GmlOut)
          (blob : ConfigBlob) (version release : String),
        lookupAssoc cache image = none →
        image.hasDigestMarker = true →
        reg.manifestList image = none →
        reg.configBlob image = .ok blob →
        lookupAssoc blob.labels "release" = some release →
        lookupAssoc blob.labels "version" = some version →
        { image with tag := some (version ++ "-" ++ release) } ≠ image →
        getManifestList reg cache image = .ok out →
        lookupAssoc out.cache image = none
        ∧ lookupAssoc out.cache { image with tag := some (version ++ "-" ++ release) } =
            some (reg.manifestList { image with tag := some (version ++ "-" ++ release) })) := by
  refine ⟨?_, ?_, ?_⟩
  · intro reg cache image v hcache
    simp only [getManifestList, hcache]
  · intro reg cache image hcache hcond
    constructor
    · simp only [getManifestList, hcache, hcond]
      simp
    · simp only [getManifestList, lookupAssoc_insert_self]
  · intro reg cache image out blob version release hcache hdig hml hblob hrel hver hne hout
    rw [getManifestList_fallback reg cache image blob version release
      hcache hdig hml hblob hrel hver] at hout
    injection hout with hout
    rw [← hout]
    constructor
    · rw [lookupAssoc_insert_ne _ _ _ _ (fun hc => hne hc.symm)]
      exact hcache
    · exact lookupAssoc_insert_self _ _ _

/-- Witness for C4 at a concrete input: a non-digest reference is fetched
once and a repeat resolution is answered from the cache with no fetch. -/
theorem c4_manifest_list_cached_per_reference_witness :
    getManifestList ⟨fun _ => none, fun _ => .error ()⟩ [] ⟨some "reg.io", none, "foo", some "7.1"⟩ =
      .ok ⟨none, [(⟨some "reg.io", none, "foo", some "7.1"⟩, none)],
           [⟨some "reg.io", none, "foo", some "7.1"⟩], []⟩
    ∧ getManifestList ⟨fun _ => none, fun _ => .error ()⟩
        [(⟨some "reg.io", none, "foo", some "7.1"⟩, none)] ⟨some "reg.io", none, "foo", some "7.1"⟩ =
      .ok ⟨none, [(⟨some "reg.io", none, "foo", some "7.1"⟩, none)], [], []⟩ :=
  c4_manifest_list_cached_per_reference.2.1 ⟨fun _ => none, fun _ => .error ()⟩ []
    ⟨some "reg.io", none, "foo", some "7.1"⟩ rfl (by decide)

/-- Counterexample to C4 as stated: a digest-addressed reference that went
through the tag-fallback path is cached only under the adjusted tag, so a
second resolution of the very same reference value performs new registry
fetches (two manifest-list fetches and a config fetch) instead of returning
from the cache. -/
theorem c4_manifest_list_cached_per_reference_counterexample :
    getManifestList
        ⟨fun i => if i.tag = some "1.0-2" then some [⟨"sha256:d1", "amd64"⟩] else none,
         fun _ => .ok ⟨[("release", "2"), ("version", "1.0")]⟩⟩
        [] ⟨some "reg.io", none, "foo", some "sha256:abc"⟩ =
      .ok ⟨some [⟨"sha256:d1", "amd64"⟩],
           [(⟨some "reg.io", none, "foo", some "1.0-2"⟩, some [⟨"sha256:d1", "amd64"⟩])],
           [⟨some "reg.io", none, "foo", some "sha256:abc"⟩,
            ⟨some "reg.io", none, "foo", some "1.0-2"⟩],
           [⟨some "reg.io", none, "foo", some "sha256:abc"⟩]⟩
    ∧ getManifestList
        ⟨fun i => if i.tag = some "1.0-2" then some [⟨"sha256:d1", "amd64"⟩] else none,
         fun _ => .ok ⟨[("release", "2"), ("version", "1.0")]⟩⟩
        [(⟨some "reg.io", none, "foo", some "1.0-2"⟩, some [⟨"sha256:d1", "amd64"⟩])]
        ⟨some "reg.io", none, "foo", some "sha256:abc"⟩ =
      .ok ⟨some [⟨"sha256:d1", "amd64"⟩],
           [(⟨some "reg.io", none, "foo", some "1.0-2"⟩, some [⟨"sha256:d1", "amd64"⟩])],
           [⟨some "reg.io", none, "foo", some "sha256:abc"⟩,
            ⟨some "reg.io", none, "foo", some "1.0-2"⟩],
           [⟨some "reg.io", none, "foo", some "sha256:abc"⟩]⟩
    ∧ ([⟨some "reg.io", none, "foo", some "sha256:abc"⟩,
        ⟨some "reg.io", none, "foo", some "1.0-2"⟩] : List ImageName) ≠ [] := by
  refine ⟨by decide, by decide, by decide⟩

/-- C10: `_ensure_image_registry` is pure on its input (it builds its result
from a copy); with a configured parent registry it raises exactly when the
input names a different registry, every non-raising result carries the
configured registry with all other fields unchanged; with no parent
registry the reference is returned with all fields unchanged. -/
theorem c10_ensure_image_registry :
    (∀ (pr : String) (image : ImageName),
        (∃ msg, ensureImageRegistry (some pr) image = .error msg) ↔
          (∃ r, image.registry = some r ∧ r ≠ pr))
    ∧ (∀ (pr : String) (image : ImageName) (out : ImageName),
        ensureImageRegistry (some pr) image = .ok out →
        out.registry = some pr ∧ out.nspace = image.nspace ∧ out.repo = image.repo ∧
          out.tag = image.tag)
    ∧ (∀ image : ImageName, ensureImageRegistry none image = .ok image) := by
  refine ⟨?_, ?_, ?_⟩
  · intro pr image
    constructor
    · rintro ⟨msg, hmsg⟩
      cases hr : image.registry with
      | none => simp [ensureImageRegistry, hr] at hmsg
      | some r =>
        refine ⟨r, rfl, ?_⟩
        intro heq
        simp [ensureImageRegistry, hr, heq] at hmsg
    · rintro ⟨r, hr, hne⟩
      exact ⟨"Registry specified in dockerfile image does not match configured one",
        by simp [ensureImageRegistry, hr, hne]⟩
  · intro pr image out h
    cases hr : image.registry with
    | none =>
      simp [ensureImageRegistry, hr] at h
      rw [← h]
      exact ⟨rfl, rfl, rfl, rfl⟩
    | some r =>
      by_cases heq : r = pr
      · simp [ensureImageRegistry, hr, heq] at h
        rw [← h]
        exact ⟨rfl, rfl, rfl, rfl⟩
      · simp [ensureImageRegistry, hr, heq] at h
  · intro image
    rfl

/-- Witness for C10 at concrete inputs: a matching registry is forced onto
the copy, a conflicting one raises, and no configured registry returns the
reference unchanged. -/
theorem c10_ensure_image_registry_witness :
    ((⟨some "reg.io", some "ns", "app", some "1"⟩ : ImageName).registry = some "reg.io"
      ∧ (⟨some "reg.io", some "ns", "app", some "1"⟩ : ImageName).nspace = some "ns"
      ∧ (⟨some "reg.io", some "ns", "app", some "1"⟩ : ImageName).repo = "app"
      ∧ (⟨some "reg.io", some "ns", "app", some "1"⟩ : ImageName).tag = some "1")
    ∧ (∃ r, (some "other.io" : Option String) = some r ∧ r ≠ "reg.io")
    ∧ ensureImageRegistry none ⟨some "other.io", none, "app", none⟩ =
        .ok ⟨some "other.io", none, "app", none⟩ := by
  refine ⟨?_, ?_, ?_⟩
  · exact c10_ensure_image_registry.2.1 "reg.io" ⟨none, some "ns", "app", some "1"⟩
      ⟨some "reg.io", some "ns", "app", some "1"⟩ rfl
  · exact (c10_ensure_image_registry.1 "reg.io" ⟨some "other.io", none, "app", none⟩).mp
      ⟨"Registry specified in dockerfile image does not match configured one", rfl⟩
  · exact c10_ensure_image_registry.2.2 ⟨some "other.io", none, "app", none⟩

/-- C5 (amended): architecture-coverage validation is skipped without
failing when the expected platform set is unknown or has fewer than 2
entries, when the base image has no registry, or when the
platform-to-architecture mapping is unavailable — in all of these cases no
manifest-list fetch is attempted; otherwise, for an expected platform set
of size at least 2 whose platforms are all mapped and whose manifest-list
fetch yields a list, it passes if and only if the architectures of the
fetched manifest list are a superset of the mapped expected architectures,
and fails fatally with the missing-architectures assertion otherwise. -/
theorem c5_validate_platforms_superset :
    (∀ (reg : Registry) (p2aOpt : Option (String → Option String)) (cache : Cache)
        (image : ImageName),
        validatePlatformsInImage reg none p2aOpt cache image = .ok ⟨.skipped, cache, [], []⟩)
    ∧ (∀ (reg : Registry) (ps : List String) (p2aOpt : Option (String → Option String))
          (cache : Cache) (image : ImageName),
        ps.length < 2 →
        validatePlatformsInImage reg (some ps) p2aOpt cache image = .ok ⟨.skipped, cache, [], []⟩)
    ∧ (∀ (reg : Registry) (ps : List String) (p2aOpt : Option (String → Option String))
          (cache : Cache) (image : ImageName),
        image.registry = none →
        validatePlatformsInImage reg (some ps) p2aOpt cache image = .ok ⟨.skipped, cache, [], []⟩)
    ∧ (∀ (reg : Registry) (eps : Option (List String)) (cache : Cache) (image : ImageName),
        validatePlatformsInImage reg eps none cache image = .ok ⟨.skipped, cache, [], []⟩)
    ∧ (∀ (reg : Registry) (ps : List String) (p2a : String → Option String) (cache : Cache)
          (image : ImageName) (out : GmlOut) (mlist : ManifestList) (arches : List String),
        2 ≤ ps.length →
        image.registry.isNone = false →
        getManifestList reg cache image = .ok out →
        out.ml = some mlist →
        mapPlatforms p2a ps = .ok arches →
        ((validatePlatformsInImage reg (some ps) (some p2a) cache image =
            .ok ⟨.passed, out.cache, out.mlFetches, out.cfgFetches⟩)
          ↔ arches.all (fun a => (mlist.map (fun m => m.architecture)).contains a) = true)
        ∧ (arches.all (fun a => (mlist.map (fun m => m.architecture)).contains a) = false →
            validatePlatformsInImage reg (some ps) (some p2a) cache image =
              .error .missingArches)) := by
  refine ⟨?_, ?_, ?_, ?_, ?_⟩
  · intro reg p2aOpt cache image
    rfl
  · intro reg ps p2aOpt cache image hlen
    match ps, hlen with
    | [], _ => rfl
    | [p], _ => rfl
  · intro reg ps p2aOpt cache image hreg
    by_cases h1 : ps.isEmpty
    · simp [validatePlatformsInImage, h1]
    · by_cases h2 : ps.length == 1
      · simp [validatePlatformsInImage, h1, h2]
      · simp [validatePlatformsInImage, h1, h2, hreg]
  · intro reg eps cache image
    cases eps with
    | none => rfl
    | some ps =>
      by_cases h1 : ps.isEmpty
      · simp [validatePlatformsInImage, h1]
      · by_cases h2 : ps.length == 1
        · simp [validatePlatformsInImage, h1, h2]
        · by_cases h3 : image.registry.isNone
          · simp [validatePlatformsInImage, h1, h2, h3]
          · simp [validatePlatformsInImage, h1, h2, h3]
  · intro reg ps p2a cache image out mlist arches hlen hreg hgml hml hmap
    have hne : ps ≠ [] := by
      intro h
      rw [h] at hlen
      simp at hlen
    have hemp : ps.isEmpty = false := by
      cases ps with
      | nil => exact absurd rfl hne
      | cons a l => rfl
    have hl1 : (ps.length == 1) = false := by
      simp
      omega
    have hval : validatePlatformsInImage reg (some ps) (some p2a) cache image =
        (if arches.all (fun a => (mlist.map (fun m => m.architecture)).contains a) then
          .ok ⟨.passed, out.cache, out.mlFetches, out.cfgFetches⟩
        else .error .missingArches) := by
      simp only [validatePlatformsInImage, hemp, hl1, hreg, hgml, hml, hmap]
      simp
    constructor
    · rw [hval]
      cases hs : arches.all (fun a => (mlist.map (fun m => m.architecture)).contains a) with
      | true => rw [if_pos rfl]; exact iff_of_true rfl rfl
      | false =>
        rw [if_neg (by simp)]
        exact iff_of_false (by simp) (by simp)
    · intro hs
      rw [hval, if_neg (by rw [hs]; exact Bool.false_ne_true)]

/-- Witness for C5 at concrete inputs: a two-platform build against a
manifest list covering both architectures passes; the same build against a
manifest list missing one architecture fails with missing-architectures. -/
theorem c5_validate_platforms_superset_witness :
    validatePlatformsInImage
        ⟨fun _ => some [⟨"sha256:d1", "amd64"⟩, ⟨"sha256:d2", "ppc64le"⟩, ⟨"sha256:d3", "s390x"⟩],
         fun _ => .error ()⟩
        (some ["x86_64", "ppc64le"])
        (some (fun p => if p = "x86_64" then some "amd64" else
                        if p = "ppc64le" then some "ppc64le" else none))
        [] ⟨some "reg.io", none, "foo", some "7.1"⟩ =
      .ok ⟨.passed,
           [(⟨some "reg.io", none, "foo", some "7.1"⟩,
             some [⟨"sha256:d1", "amd64"⟩, ⟨"sha256:d2", "ppc64le"⟩, ⟨"sha256:d3", "s390x"⟩])],
           [⟨some "reg.io", none, "foo", some "7.1"⟩], []⟩
    ∧ validatePlatformsInImage
        ⟨fun _ => some [⟨"sha256:d1", "amd64"⟩], fun _ => .error ()⟩
        (some ["x86_64", "ppc64le"])
        (some (fun p => if p = "x86_64" then some "amd64" else
                        if p = "ppc64le" then some "ppc64le" else none))
        [] ⟨some "reg.io", none, "foo", some "7.1"⟩ =
      .error .missingArches := by
  constructor
  · exact ((c5_validate_platforms_superset.2.2.2.2
      ⟨fun _ => some [⟨"sha256:d1", "amd64"⟩, ⟨"sha256:d2", "ppc64le"⟩, ⟨"sha256:d3", "s390x"⟩],
       fun _ => .error ()⟩
      ["x86_64", "ppc64le"]
      (fun p => if p = "x86_64" then some "amd64" else
                if p = "ppc64le" then some "ppc64le" else none)
      [] ⟨some "reg.io", none, "foo", some "7.1"⟩ _
      [⟨"sha256:d1", "amd64"⟩, ⟨"sha256:d2", "ppc64le"⟩, ⟨"sha256:d3", "s390x"⟩]
      ["amd64", "ppc64le"]
      (by decide) rfl rfl rfl (by decide)).1).mpr (by decide)
  · exact (c5_validate_platforms_superset.2.2.2.2
      ⟨fun _ => some [⟨"sha256:d1", "amd64"⟩], fun _ => .error ()⟩
      ["x86_64", "ppc64le"]
      (fun p => if p = "x86_64" then some "amd64" else
                if p = "ppc64le" then some "ppc64le" else none)
      [] ⟨some "reg.io", none, "foo", some "7.1"⟩ _
      [⟨"sha256:d1", "amd64"⟩] ["amd64", "ppc64le"]
      (by decide) rfl rfl rfl (by decide)).2 (by decide)

/-- Counterexample to C5 as stated: a two-platform build with an available,
fully defined mapping but a registry-less base image is skipped without
failing, even though the registry oracle's manifest list for that image
lacks one of the expected architectures — the claim, which lists no
registry-missing skip, would require the missing-architectures failure
here. -/
theorem c5_validate_platforms_superset_counterexample :
    validatePlatformsInImage
        ⟨fun _ => some [⟨"sha256:d1", "amd64"⟩], fun _ => .error ()⟩
        (some ["x86_64", "ppc64le"])
        (some (fun p => if p = "x86_64" then some "amd64" else
                        if p = "ppc64le" then some "ppc64le" else none))
        [] ⟨none, none, "foo", some "7.1"⟩ =
      .ok ⟨.skipped, [], [], []⟩
    ∧ (["amd64", "ppc64le"].all
        (fun a => (([⟨"sha256:d1", "amd64"⟩] : ManifestList).map
          (fun m => m.architecture)).contains a)) = false := by
  refine ⟨by decide, by decide⟩

/- ## Helper lemmas: poller and expectation derivation -/

theorem anyAmd64_none (p2g : String → Option String) :
    ∀ ps : List String, (∀ p ∈ ps, ∃ g, p2g p = some g ∧ g ≠ "amd64") →
      anyAmd64 p2g ps = .ok false := by
  intro ps
  induction ps with
  | nil => intro _; rfl
  | cons p rest ih =>
    intro h
    obtain ⟨g, hg, hgne⟩ := h p (List.mem_cons_self _ _)
    simp only [anyAmd64, hg, if_neg hgne]
    exact ih (fun q hq => h q (List.mem_cons_of_mem _ hq))

/-- C6: in every poller iteration, HTTP 404 is transient (the loop sleeps
and polls again), HTTP 403 is transient but additionally emits the detailed
diagnostic before sleeping, and any other HTTP error propagates immediately
with no sleep and no further lookup. -/
theorem c6_poller_http_classification :
    (∀ (r : Nat → LookupResult) (e : Nat → Nat) (cfg : PollCfg) (i fuel : Nat),
        r i = .err 404 → e i ≤ cfg.timeout →
        pollGo r e cfg i (fuel + 1) =
          (match pollGo r e cfg (i + 1) fuel with
           | none => none
           | some (t, res) => some (.lookup :: .sleepEv :: t, res)))
    ∧ (∀ (r : Nat → LookupResult) (e : Nat → Nat) (cfg : PollCfg) (i fuel : Nat),
        r i = .err 403 → e i ≤ cfg.timeout →
        pollGo r e cfg i (fuel + 1) =
          (match pollGo r e cfg (i + 1) fuel with
           | none => none
           | some (t, res) => some (.lookup :: .diag403 :: .sleepEv :: t, res)))
    ∧ (∀ (r : Nat → LookupResult) (e : Nat → Nat) (cfg : PollCfg) (i fuel : Nat) (s : Nat),
        r i = .err s → s ≠ 404 → s ≠ 403 →
        pollGo r e cfg i (fuel + 1) = some ([.lookup], .error (.http s))) := by
  refine ⟨?_, ?_, ?_⟩
  · intro r e cfg i fuel hr he
    simp only [pollGo, hr, if_pos rfl, Nat.not_lt.mpr he, if_neg (Nat.not_lt.mpr he)]
    cases pollGo r e cfg (i + 1) fuel with
    | none => simp
    | some pr => obtain ⟨t, res⟩ := pr; simp
  · intro r e cfg i fuel hr he
    simp only [pollGo, hr]
    rw [if_pos trivial, if_neg (Nat.not_lt.mpr he)]
    cases pollGo r e cfg (i + 1) fuel with
    | none => simp [he]
    | some pr => obtain ⟨t, res⟩ := pr; simp [he]
  · intro r e cfg i fuel s hr h404 h403
    simp only [pollGo, hr]
    rw [if_neg h404, if_neg h403]

/-- Witness for C6 at concrete inputs: 404 then a matching response
succeeds after one sleep; a single 500 fails immediately with exactly one
lookup and no sleep. -/
theorem c6_poller_http_classification_witness :
    pollGo (fun i => if i = 0 then .err 404 else .ok ⟨false, true, false⟩) (fun _ => 0)
        ⟨1200, false, false, true⟩ 0 2 =
      some ([.lookup, .sleepEv, .lookup], .ok ⟨false, true, false⟩)
    ∧ pollGo (fun _ => .err 500) (fun _ => 0) ⟨1200, false, false, true⟩ 0 2 =
      some ([.lookup], .error (.http 500)) := by
  constructor
  · rw [c6_poller_http_classification.1 (fun i => if i = 0 then .err 404 else .ok ⟨false, true, false⟩)
      (fun _ => 0) ⟨1200, false, false, true⟩ 0 1 rfl (by decide)]
    decide
  · exact c6_poller_http_classification.2.2 (fun _ => .err 500) (fun _ => 0)
      ⟨1200, false, false, true⟩ 0 1 500 rfl (by decide) (by decide)

/-- C7 (amended): before each further wait the poller checks the elapsed
wall clock against the configured timeout and, when exceeded, fails with
`CraneTimeoutError` even if the next response would have matched; the
seconds named in the failure are the configured timeout value, not the
measured elapsed time. -/
theorem c7_poller_timeout_before_wait :
    (∀ (r : Nat → LookupResult) (e : Nat → Nat) (cfg : PollCfg) (i fuel : Nat) (d : DigestSet),
        r i = .ok d → (cfg.expectV2List && !d.v2_list) = true →
        cfg.timeout < e i →
        pollGo r e cfg i (fuel + 1) = some ([.lookup], .error (.craneTimeout cfg.timeout)))
    ∧ (∀ (r : Nat → LookupResult) (e : Nat → Nat) (cfg : PollCfg) (i fuel : Nat),
        r i = .err 404 → cfg.timeout < e i →
        pollGo r e cfg i (fuel + 1) = some ([.lookup], .error (.craneTimeout cfg.timeout))) := by
  constructor
  · intro r e cfg i fuel d hr hmiss ht
    simp only [pollGo, hr, hmiss, if_pos ht]
    simp
  · intro r e cfg i fuel hr ht
    simp only [pollGo, hr, if_pos ht]
    simp

/-- Witness for C7 at a concrete input: elapsed 7 over a timeout of 5 at
the first check fails at once even though the next response matches. -/
theorem c7_poller_timeout_before_wait_witness :
    pollGo (fun i => if i = 0 then .ok ⟨false, true, false⟩ else .ok ⟨false, true, true⟩)
        (fun _ => 7) ⟨5, true, false, true⟩ 0 2 =
      some ([.lookup], .error (.craneTimeout 5)) :=
  c7_poller_timeout_before_wait.1
    (fun i => if i = 0 then .ok ⟨false, true, false⟩ else .ok ⟨false, true, true⟩)
    (fun _ => 7) ⟨5, true, false, true⟩ 0 1 ⟨false, true, false⟩ rfl (by decide) (by decide)

/-- Counterexample to C7 as stated: with a configured timeout of 5 seconds
and 7 elapsed seconds, the failure names 5 — the configured timeout — not
the 7 elapsed seconds the claim requires
(`CraneTimeoutError("{} seconds exceeded".format(self.timeout))`). -/
theorem c7_poller_timeout_before_wait_counterexample :
    pollGo (fun i => if i = 0 then .err 404 else .ok ⟨false, true, true⟩) (fun _ => 7)
        ⟨5, false, false, true⟩ 0 2 =
      some ([.lookup], .error (.craneTimeout 5))
    ∧ PollErr.craneTimeout 5 ≠ PollErr.craneTimeout 7 := by
  refine ⟨by decide, by decide⟩

/-- C8: expectation derivation runs exactly once before polling starts (the
loop runs with the fixed derived configuration and never re-derives); when
the manifest-grouping step produced output the poller expects a schema-2
manifest list; when additionally the expected platforms are known
(non-empty), the mapping is available, and no expected platform maps to
amd64, the poller enters manifest-list-only mode, drops the single-manifest
expectation, and accepts a returned DigestSet on manifest-list presence
alone. -/
theorem c8_manifest_list_only_derivation :
    (∀ (pl : Option (List String)) (m : Option (String → Option String))
        (init e : Expectations),
        setManifestListExpectations true pl m init = .ok e → e.expectV2List = true)
    ∧ (∀ (ps : List String) (p2g : String → Option String) (init : Expectations),
        ps ≠ [] → (∀ p ∈ ps, ∃ g, p2g p = some g ∧ g ≠ "amd64") →
        setManifestListExpectations true (some ps) (some p2g) init = .ok ⟨true, true, false⟩)
    ∧ (∀ (r : Nat → LookupResult) (e : Nat → Nat) (cfg : PollCfg) (i fuel : Nat)
          (d : DigestSet),
        cfg.expectV2ListOnly = true → d.v2_list = true → r i = .ok d →
        pollGo r e cfg i (fuel + 1) = some ([.lookup], .ok d))
    ∧ (∀ (g : Bool) (pl : Option (List String)) (m : Option (String → Option String))
          (init : Expectations) (responses : Nat → LookupResult) (elapsed : Nat → Nat)
          (timeout fuel : Nat) (exps : Expectations),
        setManifestListExpectations g pl m init = .ok exps →
        pollAfterDerivation g pl m init responses elapsed timeout fuel =
          .ok (pollGo responses elapsed
            ⟨timeout, exps.expectV2List, exps.expectV2ListOnly, exps.expectV2⟩ 0 fuel)) := by
  refine ⟨?_, ?_, ?_, ?_⟩
  · intro pl m init e h
    cases pl with
    | none =>
      simp [setManifestListExpectations] at h
      rw [← h]
    | some ps =>
      by_cases h1 : ps.isEmpty
      · simp [setManifestListExpectations, h1] at h
        rw [← h]
      · cases m with
        | none =>
          simp [setManifestListExpectations, h1] at h
          rw [← h]
        | some p2g =>
          cases ha : anyAmd64 p2g ps with
          | error u => simp [setManifestListExpectations, h1, ha] at h
          | ok b =>
            cases b with
            | true =>
              simp [setManifestListExpectations, h1, ha] at h
              rw [← h]
            | false =>
              simp [setManifestListExpectations, h1, ha] at h
              rw [← h]
  · intro ps p2g init hne hmap
    have hemp : ps.isEmpty = false := by
      cases ps with
      | nil => exact absurd rfl hne
      | cons a l => rfl
    simp only [setManifestListExpectations, if_pos rfl, hemp, anyAmd64_none p2g ps hmap]
    simp
  · intro r e cfg i fuel d honly hd hr
    simp only [pollGo, hr, hd, honly]
    simp
  · intro g pl m init responses elapsed timeout fuel exps hset
    simp only [pollAfterDerivation, hset]

/-- Witness for C8 at concrete inputs: a ppc64le-only grouped build derives
`{list, list-only, no single-manifest}` and the poller accepts a DigestSet
with only the manifest list present. -/
theorem c8_manifest_list_only_derivation_witness :
    setManifestListExpectations true (some ["ppc64le"])
        (some (fun p => if p = "ppc64le" then some "ppc64le" else none))
        ⟨false, false, true⟩ = .ok ⟨true, true, false⟩
    ∧ pollGo (fun _ => .ok ⟨false, false, true⟩) (fun _ => 0) ⟨1200, true, true, false⟩ 0 1 =
        some ([.lookup], .ok ⟨false, false, true⟩)
    ∧ pollAfterDerivation true (some ["ppc64le"])
        (some (fun p => if p = "ppc64le" then some "ppc64le" else none))
        ⟨false, false, true⟩ (fun _ => .ok ⟨false, false, true⟩) (fun _ => 0) 1200 1 =
        .ok (pollGo (fun _ => .ok ⟨false, false, true⟩) (fun _ => 0) ⟨1200, true, true, false⟩ 0 1) := by
  refine ⟨?_, ?_, ?_⟩
  · exact c8_manifest_list_only_derivation.2.1 ["ppc64le"]
      (fun p => if p = "ppc64le" then some "ppc64le" else none) ⟨false, false, true⟩
      (by decide) (by
        intro p hp
        simp at hp
        exact ⟨"ppc64le", by rw [hp]; simp, by decide⟩)
  · exact c8_manifest_list_only_derivation.2.2.1 (fun _ => .ok ⟨false, false, true⟩)
      (fun _ => 0) ⟨1200, true, true, false⟩ 0 0 ⟨false, false, true⟩ rfl rfl rfl
  · exact c8_manifest_list_only_derivation.2.2.2 true (some ["ppc64le"])
      (some (fun p => if p = "ppc64le" then some "ppc64le" else none)) ⟨false, false, true⟩
      (fun _ => .ok ⟨false, false, true⟩) (fun _ => 0) 1200 1 ⟨true, true, false⟩ (by decide)

/- ## Helper lemmas: per-architecture substitution -/

theorem buildDigests_ok (a2p : String → Option String) :
    ∀ (l : List (String × ImageName)) (bid0 : List (String × ImageName)) (ppo0 : Option String),
      (∀ kv ∈ l, (a2p kv.1).isSome) →
      ∃ r, buildDigests a2p l bid0 ppo0 = .ok r := by
  intro l
  induction l with
  | nil => intro bid0 ppo0 _; exact ⟨(bid0, ppo0), rfl⟩
  | cons kv rest ih =>
    intro bid0 ppo0 h
    obtain ⟨arch, img⟩ := kv
    have hs := h (arch, img) (List.mem_cons_self _ _)
    cases ha : a2p arch with
    | none => rw [ha] at hs; cases hs
    | some pp =>
      simp only [buildDigests, ha]
      exact ih _ _ (fun x hx => h x (List.mem_cons_of_mem _ hx))

theorem buildDigests_prov (a2p : String → Option String) (P : String × ImageName → Prop) :
    ∀ (l bid0 : List (String × ImageName)) (ppo0 : Option String)
      (bid : List (String × ImageName)) (ppo : Option String),
      (∀ kv ∈ bid0, P kv) →
      (∀ kv : String × ImageName, kv ∈ l → ∀ pp, a2p kv.1 = some pp → P (pp, kv.2)) →
      buildDigests a2p l bid0 ppo0 = .ok (bid, ppo) →
      ∀ kv ∈ bid, P kv := by
  intro l
  induction l with
  | nil =>
    intro bid0 ppo0 bid ppo h0 _ heq
    injection heq with heq
    injection heq with h1 h2
    rw [← h1]
    exact h0
  | cons kv0 rest ih =>
    intro bid0 ppo0 bid ppo h0 hl heq
    obtain ⟨arch, img⟩ := kv0
    cases ha : a2p arch with
    | none => simp only [buildDigests, ha] at heq; cases heq
    | some pp =>
      simp only [buildDigests, ha] at heq
      exact ih (insertAssoc bid0 pp img) (some pp) bid ppo
        (insertAssoc_forall P bid0 pp img h0
          (hl (arch, img) (List.mem_cons_self _ _) pp ha))
        (fun x hx => hl x (List.mem_cons_of_mem _ hx)) heq

theorem buildDigests_final (a2p : String → Option String) :
    ∀ (l bid0 : List (String × ImageName)) (ppo0 : Option String)
      (bid : List (String × ImageName)) (ppo : Option String),
      l ≠ [] →
      buildDigests a2p l bid0 ppo0 = .ok (bid, ppo) →
      ∃ pp, ppo = some pp ∧ (lookupAssoc bid pp).isSome := by
  intro l
  induction l with
  | nil => intro bid0 ppo0 bid ppo hne; exact absurd rfl hne
  | cons kv0 rest ih =>
    intro bid0 ppo0 bid ppo _ heq
    obtain ⟨arch, img⟩ := kv0
    cases ha : a2p arch with
    | none => simp only [buildDigests, ha] at heq; cases heq
    | some pp =>
      simp only [buildDigests, ha] at heq
      cases hrest : rest with
      | nil =>
        rw [hrest] at heq
        injection heq with heq
        injection heq with h1 h2
        refine ⟨pp, h2.symm, ?_⟩
        rw [← h1, lookupAssoc_insert_self]
        rfl
      | cons x xs =>
        exact ih _ _ bid ppo (by rw [hrest]; exact List.cons_ne_nil _ _) heq

theorem archDigests_prov (image : ImageName) (S : String × ImageName → Prop) :
    ∀ (l : List Manifest) (acc : List (String × ImageName)),
      (∀ kv ∈ acc, S kv) →
      (∀ m ∈ l, S (m.architecture, mkDigestRef image m.digest)) →
      ∀ kv ∈ l.foldl (fun a m => insertAssoc a m.architecture (mkDigestRef image m.digest)) acc,
        S kv := by
  intro l
  induction l with
  | nil => intro acc hacc _ kv hkv; exact hacc kv hkv
  | cons m rest ih =>
    intro acc hacc hl kv hkv
    exact ih (insertAssoc acc m.architecture (mkDigestRef image m.digest))
      (insertAssoc_forall S acc _ _ hacc (hl m (List.mem_cons_self _ _)))
      (fun x hx => hl x (List.mem_cons_of_mem _ hx)) kv hkv

theorem foldl_insertAssoc_ne_nil (image : ImageName) :
    ∀ (l : List Manifest) (acc : List (String × ImageName)),
      acc ≠ [] ∨ l ≠ [] →
      l.foldl (fun a m => insertAssoc a m.architecture (mkDigestRef image m.digest)) acc ≠ [] := by
  intro l
  induction l with
  | nil =>
    intro acc h
    rcases h with h | h
    · exact h
    · exact absurd rfl h
  | cons m rest ih =>
    intro acc _
    exact ih (insertAssoc acc m.architecture (mkDigestRef image m.digest))
      (Or.inl (insertAssoc_ne_nil _ _ _))

/-- C9 (amended): when the current execution platform is not among the
platforms mapped from the manifest-list architectures, the resolver
substitutes the digest-addressed reference of an architecture that is
present in the manifest list — the one whose mapped platform was processed
last — and that platform is necessarily different from the current one; if
the architecture-to-platform mapping is unavailable or no manifest list is
found, the reference is left unchanged as a soft, non-fatal outcome. -/
theorem c9_arch_substitution_policy :
    (∀ (reg : Registry) (cache : Cache) (image : ImageName) (platform : String) (out : GmlOut),
        getManifestList reg cache image = .ok out →
        getImageForDifferentArch reg none cache image platform =
          .ok ⟨none, out.cache, out.mlFetches, out.cfgFetches⟩)
    ∧ (∀ (reg : Registry) (a2pOpt : Option (String → Option String)) (cache : Cache)
          (image : ImageName) (platform : String) (out : GmlOut),
        getManifestList reg cache image = .ok out → out.ml = none →
        getImageForDifferentArch reg a2pOpt cache image platform =
          .ok ⟨none, out.cache, out.mlFetches, out.cfgFetches⟩)
    ∧ (∀ (reg : Registry) (a2p : String → Option String) (cache : Cache) (image : ImageName)
          (platform : String) (out : GmlOut) (mlist : ManifestList),
        getManifestList reg cache image = .ok out → out.ml = some mlist → mlist ≠ [] →
        (∀ m ∈ mlist, (a2p m.architecture).isSome) →
        (∀ m ∈ mlist, a2p m.architecture ≠ some platform) →
        ∃ m ∈ mlist, ∃ pp, a2p m.architecture = some pp ∧ pp ≠ platform ∧
          getImageForDifferentArch reg (some a2p) cache image platform =
            .ok ⟨some (mkDigestRef image m.digest), out.cache, out.mlFetches, out.cfgFetches⟩) := by
  refine ⟨?_, ?_, ?_⟩
  · intro reg cache image platform out hgml
    simp only [getImageForDifferentArch, hgml]
    cases out.ml with
    | none => rfl
    | some mlist => rfl
  · intro reg a2pOpt cache image platform out hgml hml
    simp only [getImageForDifferentArch, hgml, hml]
  · intro reg a2p cache image platform out mlist hgml hml hmne hmapped habsent
    have hprov0 : ∀ kv ∈ mlist.foldl
        (fun acc m => insertAssoc acc m.architecture (mkDigestRef image m.digest)) [],
        ∃ m ∈ mlist, kv.1 = m.architecture ∧ kv.2 = mkDigestRef image m.digest :=
      archDigests_prov image _ mlist [] (by simp) (fun m hm => ⟨m, hm, rfl, rfl⟩)
    have hmapAD : ∀ kv ∈ mlist.foldl
        (fun acc m => insertAssoc acc m.architecture (mkDigestRef image m.digest)) [],
        (a2p kv.1).isSome := by
      intro kv hkv
      obtain ⟨m, hm, h1, _⟩ := hprov0 kv hkv
      rw [h1]
      exact hmapped m hm
    obtain ⟨⟨bid, ppo⟩, hbd⟩ := buildDigests_ok a2p
      (mlist.foldl (fun acc m => insertAssoc acc m.architecture (mkDigestRef image m.digest)) [])
      [] none hmapAD
    have hADne : mlist.foldl
        (fun acc m => insertAssoc acc m.architecture (mkDigestRef image m.digest)) [] ≠ [] :=
      foldl_insertAssoc_ne_nil image mlist [] (Or.inr hmne)
    obtain ⟨pp, hppo, hlookup⟩ := buildDigests_final a2p _ [] none bid ppo hADne hbd
    subst hppo
    have hP : ∀ kv ∈ bid,
        ∃ m ∈ mlist, a2p m.architecture = some kv.1 ∧ kv.2 = mkDigestRef image m.digest :=
      buildDigests_prov a2p _ _ [] none bid (some pp) (by simp)
        (fun kv hkv pp' hpp' => by
          obtain ⟨m, hm, h1, h2⟩ := hprov0 kv hkv
          exact ⟨m, hm, by rw [← h1]; exact hpp', h2⟩) hbd
    have hplat : (lookupAssoc bid platform).isSome = false := by
      cases hl : lookupAssoc bid platform with
      | none => rfl
      | some v =>
        obtain ⟨m, hm, hmp, _⟩ := hP (platform, v) (lookupAssoc_mem bid platform v hl)
        exact absurd hmp (habsent m hm)
    obtain ⟨img, himg⟩ := Option.isSome_iff_exists.mp hlookup
    obtain ⟨m, hm, hmpp, himgeq⟩ := hP (pp, img) (lookupAssoc_mem bid pp img himg)
    have hppne : pp ≠ platform := fun h => habsent m hm (by rw [hmpp, h])
    refine ⟨m, hm, pp, hmpp, hppne, ?_⟩
    simp only [getImageForDifferentArch, hgml, hml, hbd]
    rw [if_neg (by rw [hplat]; exact Bool.false_ne_true)]
    rw [himg]
    have himgeq2 : img = mkDigestRef image m.digest := himgeq
    rw [himgeq2]

/-- Witness for C9 at a concrete input: an amd64-only manifest list for a
ppc64le build substitutes the amd64 digest reference, whose platform
(`x86_64`) differs from the current one. -/
theorem c9_arch_substitution_policy_witness :
    ∃ m ∈ ([⟨"sha256:d1", "amd64"⟩] : ManifestList), ∃ pp,
      (if m.architecture = "amd64" then some "x86_64" else none) = some pp ∧ pp ≠ "ppc64le" ∧
      getImageForDifferentArch
        ⟨fun i => if i.tag = some "latest" then some [⟨"sha256:d1", "amd64"⟩] else none,
         fun _ => .error ()⟩
        (some (fun a => if a = "amd64" then some "x86_64" else none)) []
        ⟨some "reg.io", none, "foo", some "latest"⟩ "ppc64le" =
        .ok ⟨some (mkDigestRef ⟨some "reg.io", none, "foo", some "latest"⟩ m.digest),
             [(⟨some "reg.io", none, "foo", some "latest"⟩, some [⟨"sha256:d1", "amd64"⟩])],
             [⟨some "reg.io", none, "foo", some "latest"⟩], []⟩ :=
  c9_arch_substitution_policy.2.2
    ⟨fun i => if i.tag = some "latest" then some [⟨"sha256:d1", "amd64"⟩] else none,
     fun _ => .error ()⟩
    (fun a => if a = "amd64" then some "x86_64" else none) []
    ⟨some "reg.io", none, "foo", some "latest"⟩ "ppc64le"
    ⟨some [⟨"sha256:d1", "amd64"⟩],
     [(⟨some "reg.io", none, "foo", some "latest"⟩, some [⟨"sha256:d1", "amd64"⟩])],
     [⟨some "reg.io", none, "foo", some "latest"⟩], []⟩
    [⟨"sha256:d1", "amd64"⟩]
    (by decide) rfl (by decide) (by decide) (by decide)

/-- Counterexample to C9 as stated: the substituted reference is the amd64
digest, but no architecture present in the manifest list maps to the
current platform `ppc64le` — so the substitution cannot be, as the claim
says, "of an architecture that maps to the same logical platform as the
current one"; the code substitutes an architecture of a different platform
(`x86_64`). -/
theorem c9_arch_substitution_policy_counterexample :
    getImageForDifferentArch
        ⟨fun i => if i.tag = some "latest" then some [⟨"sha256:d1", "amd64"⟩] else none,
         fun _ => .error ()⟩
        (some (fun a => if a = "amd64" then some "x86_64" else none)) []
        ⟨some "reg.io", none, "foo", some "latest"⟩ "ppc64le" =
      .ok ⟨some (mkDigestRef ⟨some "reg.io", none, "foo", some "latest"⟩ "sha256:d1"),
           [(⟨some "reg.io", none, "foo", some "latest"⟩, some [⟨"sha256:d1", "amd64"⟩])],
           [⟨some "reg.io", none, "foo", some "latest"⟩], []⟩
    ∧ (∀ m ∈ ([⟨"sha256:d1", "amd64"⟩] : ManifestList),
        (if m.architecture = "amd64" then some "x86_64" else none) ≠ some "ppc64le")
    ∧ (if ("amd64" : String) = "amd64" then some "x86_64" else none) = some "x86_64"
    ∧ ("x86_64" : String) ≠ "ppc64le" := by
  refine ⟨by decide, by decide, by decide, by decide⟩
